import Mathlib

/-!
Verification of the result-file parsing and parameter-normalization pipeline of
`statistics.py` (class `SmartCampusExperimentStatistics`).  The Python code is
embedded shallowly: JSON values become an inductive `Value`, Python dicts become
insertion-ordered association lists, Python exceptions become an `Err` type
carried by `Except`, and the object state of the coordinator becomes an explicit
`CoordState` threaded through the functions.
-/

namespace RideStats

/-- JSON values as decoded by Python's `json` module: `None`, booleans, numbers
(modelled as rationals), strings, lists, and dicts (insertion-ordered
association lists with string keys). -/
inductive Value where
  | null : Value
  | bool : Bool → Value
  | num : Rat → Value
  | str : String → Value
  | arr : List Value → Value
  | obj : List (String × Value) → Value

/-- A Python dict holding JSON values, as produced by `json.load`: an
association list.  Dicts decoded from JSON always have unique keys
(`NodupKeys` below). -/
abbrev Dict := List (String × Value)

/-- The Python exceptions (plus `SystemExit` raised by `exit(1)`) that the
pipeline in `statistics.py` can raise. -/
inductive Err where
  | keyError : String → Err
  | valueError : String → Err
  | indexError : Err
  | typeError : Err
  | attributeError : Err
  | assertionError : Err
  | notImplemented : String → Err
  | systemExit : Nat → Err
deriving DecidableEq

/-- `d[k]` / `d.get(k)`: the value bound to `k`, if any (first binding). -/
def Dict.findVal : Dict → String → Option Value
  | [], _ => none
  | (k', v) :: rest, k => if k' = k then some v else Dict.findVal rest k

/-- The removal part of `d.pop(k)` / `del d[k]`: drop the binding of `k`. -/
def Dict.eraseVal : Dict → String → Dict
  | [], _ => []
  | (k', v) :: rest, k =>
    if k' = k then Dict.eraseVal rest k else (k', v) :: Dict.eraseVal rest k

/-- `d[k] = v`: replace the binding of `k` in place, or append a new binding. -/
def Dict.setVal : Dict → String → Value → Dict
  | [], k, v => [(k, v)]
  | (k', v') :: rest, k, v =>
    if k' = k then (k, v) :: rest else (k', v') :: Dict.setVal rest k v

/-- Python dicts have unique keys; every dict decoded from JSON satisfies this. -/
def NodupKeys (d : Dict) : Prop := (d.map Prod.fst).Nodup

instance (d : Dict) : Decidable (NodupKeys d) := by
  unfold NodupKeys; infer_instance

/-- Whether a JSON value is Python's `None`. -/
def Value.isNull : Value → Bool
  | .null => true
  | _ => false

/-- Python truthiness of a JSON value (`if not v`). -/
def Value.truthy : Value → Bool
  | .null => false
  | .bool b => b
  | .num q => if q = 0 then false else true
  | .str s => if s = "" then false else true
  | .arr vs => !vs.isEmpty
  | .obj fs => !fs.isEmpty

/-- Truthiness of `d.get(k)`, where an absent key yields `None` (falsy). -/
def truthyOpt : Option Value → Bool
  | none => false
  | some v => Value.truthy v

/-- `isinstance(v, basestring)`. -/
def Value.isStr : Value → Bool
  | .str _ => true
  | _ => false

/-- `data[k]` with a string key on a decoded JSON value.  Lists reject string
subscripts with `TypeError`, as do scalars. -/
def Value.getItem : Value → String → Except Err Value
  | .obj fs, k =>
    match Dict.findVal fs k with
    | some v => .ok v
    | none => .error (.keyError k)
  | _, _ => .error .typeError

/-- `v[i]` with an integer index (used for `exp_params['topo'][1]`).  Strings
index to one-character strings, lists to elements, dicts look the integer up
as a key (absent here), everything else is a `TypeError`. -/
def Value.getIndex : Value → Nat → Except Err Value
  | .arr vs, i =>
    match vs.get? i with
    | some x => .ok x
    | none => .error .indexError
  | .str s, i =>
    match s.toList.get? i with
    | some c => .ok (.str (String.mk [c]))
    | none => .error .indexError
  | .obj _, _ => .error (.keyError "1")
  | _, _ => .error .typeError

/-- Numeric value of a list of decimal digits. -/
def digitsVal (ds : List Char) : Nat :=
  ds.foldl (fun a c => a * 10 + (c.toNat - 48)) 0

/-- Core of `pyFloat` after whitespace stripping: optional sign, integer part,
optional fraction, optional decimal exponent.  The value is assembled with
`mkRat` from an integer numerator and a power-of-ten denominator. -/
def pyFloatCore (cs0 : List Char) : Option Rat :=
  let signAndRest : Bool × List Char :=
    match cs0 with
    | '-' :: t => (true, t)
    | '+' :: t => (false, t)
    | t => (false, t)
  let neg := signAndRest.1
  let cs1 := signAndRest.2
  let ip := cs1.takeWhile Char.isDigit
  let cs2 := cs1.drop ip.length
  let fracAndRest : List Char × List Char :=
    match cs2 with
    | '.' :: t => (t.takeWhile Char.isDigit, t.drop (t.takeWhile Char.isDigit).length)
    | t => ([], t)
  let fp := fracAndRest.1
  let cs3 := fracAndRest.2
  if ip.isEmpty && fp.isEmpty then none
  else
    let num : Int := (digitsVal (ip ++ fp) : Int)
    let num := if neg then -num else num
    let den : Nat := 10 ^ fp.length
    match cs3 with
    | [] => some (mkRat num den)
    | c :: t =>
      if c = 'e' || c = 'E' then
        let esignAndRest : Bool × List Char :=
          match t with
          | '-' :: u => (true, u)
          | '+' :: u => (false, u)
          | u => (false, u)
        let ed := esignAndRest.2.takeWhile Char.isDigit
        if ed.isEmpty || !(esignAndRest.2.drop ed.length).isEmpty then none
        else if esignAndRest.1 then some (mkRat num (den * 10 ^ digitsVal ed))
        else some (mkRat (num * ((10 ^ digitsVal ed : Nat) : Int)) den)
      else none

/-- Models Python's builtin `float(s)` on finite decimal literals: leading and
trailing whitespace is stripped, then an optionally signed decimal with
optional fraction and exponent is accepted; anything else raises `ValueError`
(`none` here).  The special values `inf`/`nan` are not modelled. -/
def pyFloat (s : String) : Option Rat :=
  let ws : Char → Bool := fun c => c = ' ' || c = '\t' || c = '\n' || c = '\r'
  pyFloatCore (((s.toList.dropWhile ws).reverse.dropWhile ws).reverse)

/-- `os.path.dirname` for POSIX paths: everything before the last `/`, with
trailing slashes stripped unless the head is all slashes. -/
def dirname (p : String) : String :=
  let cs := p.toList
  let tailLen := (cs.reverse.takeWhile (fun c => !(c = '/'))).length
  let head := cs.take (cs.length - tailLen)
  let stripped := (head.reverse.dropWhile (fun c => c = '/')).reverse
  String.mk (if stripped.isEmpty then head else stripped)

/-- Whether a path begins with `/`. -/
def startsWithSlash (s : String) : Bool :=
  match s.toList with
  | '/' :: _ => true
  | _ => false

/-- Whether a path ends with `/`. -/
def endsWithSlash (s : String) : Bool :=
  match s.toList.reverse with
  | '/' :: _ => true
  | _ => false

/-- `os.path.join(a, b)` for POSIX paths and two arguments: an absolute `b`
wins; otherwise the parts are glued with `/` unless `a` is empty or already
ends with `/`. -/
def pathJoin (a b : String) : String :=
  if startsWithSlash b then b
  else if a = "" then a ++ b
  else if endsWithSlash a then a ++ b
  else a ++ "/" ++ b

/-- Split a character list on a separator character, Python-style: `n`
separators yield `n + 1` groups, and the empty list yields one empty group. -/
def splitChar (sep : Char) : List Char → List (List Char)
  | [] => [[]]
  | c :: rest =>
    match splitChar sep rest with
    | [] => [[]]
    | g :: gs => if c = sep then [] :: g :: gs else (c :: g) :: gs

/-- Python's `s.split(sep)` for a one-character separator (used for
`failure_model.split('/')`). -/
def pySplit (s : String) (sep : Char) : List String :=
  (splitChar sep s.toList).map (fun g => String.mk g)

/-- `exp_params['const_alg'] = exp_params.pop("heuristic")` and
`exp_params['exp_type'] = exp_params.pop("experiment_type")`
(statistics.py lines 123-124); `pop` raises `KeyError` on an absent key. -/
def step_rename (d : Dict) : Except Err Dict :=
  match Dict.findVal d "heuristic" with
  | none => .error (.keyError "heuristic")
  | some hv =>
    match Dict.findVal (Dict.setVal (Dict.eraseVal d "heuristic") "const_alg" hv)
        "experiment_type" with
    | none => .error (.keyError "experiment_type")
    | some ev =>
      .ok (Dict.setVal
        (Dict.eraseVal (Dict.setVal (Dict.eraseVal d "heuristic") "const_alg" hv)
          "experiment_type") "exp_type" ev)

/-- `exp_params['fprob'] = float(exp_params.pop('failure_model').split('/')[1])`
(statistics.py line 126): a non-string raises `AttributeError` at `.split`, a
missing second component raises `IndexError`, a non-numeric one `ValueError`. -/
def step_fprob (d : Dict) : Except Err Dict :=
  match Dict.findVal d "failure_model" with
  | none => .error (.keyError "failure_model")
  | some (Value.str fs) =>
    match (pySplit fs '/').get? 1 with
    | none => .error .indexError
    | some comp =>
      match pyFloat comp with
      | none => .error (.valueError comp)
      | some q => .ok (Dict.setVal (Dict.eraseVal d "failure_model") "fprob" (.num q))
  | some _ => .error .attributeError

/-- Topology normalization (statistics.py lines 128-130): a non-string `topo`
is replaced by its element at index 1, which is then asserted to be a string. -/
def step_topo (d : Dict) : Except Err Dict :=
  match Dict.findVal d "topo" with
  | none => .error (.keyError "topo")
  | some tv =>
    if tv.isStr then .ok d
    else
      match Value.getIndex tv 1 with
      | .error e => .error e
      | .ok nv =>
        if nv.isStr then .ok (Dict.setVal d "topo" nv) else .error .assertionError

/-- The null-clearing loop (statistics.py lines 132-135): delete every
parameter whose value is `None`. -/
def clearNulls : Dict → Dict
  | [] => []
  | (k, v) :: rest => if v.isNull then clearNulls rest else (k, v) :: clearNulls rest

/-- `exp_params['select_policy'] = exp_params.pop('tree_choosing_heuristic')`
(statistics.py line 139) applied to `d`, given the popped value `tv`. -/
def spSet (d : Dict) (tv : Value) : Dict :=
  Dict.setVal (Dict.eraseVal d "tree_choosing_heuristic") "select_policy" tv

/-- The mininet-specific block (statistics.py lines 137-143):
`exp_params['select_policy'] = exp_params.pop('tree_choosing_heuristic')`, then
if `exp_params.get("n_traffic_generators")` is falsy, `del` both traffic
generator keys (each `del` raising `KeyError` if its key is absent). -/
def step_mininet (d : Dict) : Except Err Dict :=
  match Dict.findVal d "tree_choosing_heuristic" with
  | none => .error (.keyError "tree_choosing_heuristic")
  | some tv =>
    if truthyOpt (Dict.findVal (spSet d tv) "n_traffic_generators") then .ok (spSet d tv)
    else
      match Dict.findVal (spSet d tv) "n_traffic_generators" with
      | none => .error (.keyError "n_traffic_generators")
      | some _ =>
        match Dict.findVal (Dict.eraseVal (spSet d tv) "n_traffic_generators")
            "traffic_generator_bandwidth" with
        | none => .error (.keyError "traffic_generator_bandwidth")
        | some _ =>
          .ok (Dict.eraseVal (Dict.eraseVal (spSet d tv) "n_traffic_generators")
            "traffic_generator_bandwidth")

/-- The experiment-type-independent part of `extract_parameters`
(statistics.py lines 123-130): the two renames, the `fprob` derivation and the
`topo` normalization, in source order. -/
def ep_common (d : Dict) : Except Err Dict :=
  match step_rename d with
  | .error e => .error e
  | .ok d1 =>
    match step_fprob d1 with
    | .error e => .error e
    | .ok d2 => step_topo d2

/-- `SmartCampusExperimentStatistics.extract_parameters` (statistics.py lines
107-151), with the experiment type passed explicitly (the source defaults it
to `self.experiment_type`, which `parse_file` has just set).  After the common
rewrites and the null-clearing loop, the experiment type dispatch runs the
mininet block, raises `NotImplementedError` for `networkx`, and calls
`exit(1)` (`SystemExit`) for anything else. -/
def extract_parameters (d : Dict) (etype : Value) : Except Err Dict :=
  match ep_common d with
  | .error e => .error e
  | .ok d3 =>
    match etype with
    | Value.str s =>
      if s = "mininet" then step_mininet (clearNulls d3)
      else if s = "networkx" then .error (.notImplemented "netx parsing not supported yet!")
      else .error (.systemExit 1)
    | _ => .error (.systemExit 1)

/-- Modelled from the spec: the external Statistics Aggregator
(`SeismicStatistics` from `seismic_warning_test.statistics`, not part of this
repository).  It is constructed from an ordered sequence of resolved output
directories and exposes an incremental `parse_all` merge; the model records
the constructor's directory sequence and every `parse_all` invocation
(directory sequence plus keyword parameters) in order. -/
structure Aggregate where
  initDirs : List String
  calls : List (List String × Dict)

/-- `MininetSeismicStatistics(dirs=dirs_to_parse)` followed by
`self.stats.parse_all(**exp_params)` (statistics.py lines 185-186). -/
def Aggregate.create (dirs : List String) (ps : Dict) : Aggregate :=
  ⟨dirs, [(dirs, ps)]⟩

/-- `self.stats.parse_all(dirs_to_parse, **exp_params)` (statistics.py line 188). -/
def Aggregate.mergeCall (a : Aggregate) (dirs : List String) (ps : Dict) : Aggregate :=
  { a with calls := a.calls ++ [(dirs, ps)] }

/-- The mutable state of a `SmartCampusExperimentStatistics` object:
`self.experiment_type`, `self.stats` (paired with an allocation identity so
that object identity is expressible), an allocation counter for constructed
aggregates, and the emitted log lines. -/
structure CoordState where
  experiment_type : Option Value
  stats : Option (Nat × Aggregate)
  nextId : Nat
  log : List String

/-- The state of a freshly constructed coordinator (statistics.py lines 61-65). -/
def CoordState.init : CoordState := ⟨none, none, 0, []⟩

/-- The warning logged when no filename is available (statistics.py lines 175-176). -/
def noFilenameWarning : String :=
  "no filename specified! assuming the outputs_dir for each run in results is relative to current working directory!"

/-- `run['outputs_dir']` of one element of `results`, when it is a string
(used only to state theorems about well-formed runs). -/
def outputsDirOf (r : Value) : String :=
  match Value.getItem r "outputs_dir" with
  | .ok (.str s) => s
  | _ => ""

/-- `[os.path.join(this_path, run['outputs_dir']) for run in results]`
(statistics.py line 181): resolve each run's outputs directory against the
base path, left to right, propagating the first exception.  A non-string
`outputs_dir` fails inside `os.path.join`. -/
def resolveOutputDirs (base : String) : List Value → Except Err (List String)
  | [] => .ok []
  | run :: rest =>
    match Value.getItem run "outputs_dir" with
    | .error e => .error e
    | .ok (.str od) =>
      match resolveOutputDirs base rest with
      | .error e => .error e
      | .ok ds => .ok (pathJoin base od :: ds)
    | .ok _ => .error .typeError

/-- The body of the mininet branch of `extract_stats_from_results`
(statistics.py lines 172-190), after the filename fallback has been applied:
resolve the outputs directories, then either construct the single
`SeismicStatistics` aggregate (first extraction) or merge into the existing
one.  Iterating `results` is modelled for JSON arrays (the shape of every
`results` member of a result file); other shapes raise `TypeError`. -/
def extract_stats_mininet (st : CoordState) (results : Value) (fname : String)
    (exp_params : Dict) : CoordState × Except Err Nat :=
  match results with
  | .arr runs =>
    match resolveOutputDirs (dirname fname) runs with
    | .error e => (st, .error e)
    | .ok dirs_to_parse =>
      match st.stats with
      | none =>
        ({ st with stats := some (st.nextId, Aggregate.create dirs_to_parse exp_params),
                   nextId := st.nextId + 1 }, .ok st.nextId)
      | some (r, agg) =>
        ({ st with stats := some (r, Aggregate.mergeCall agg dirs_to_parse exp_params) },
         .ok r)
  | _ => (st, .error .typeError)

/-- `SmartCampusExperimentStatistics.extract_stats_from_results`
(statistics.py lines 153-210), with the experiment type passed explicitly and
the object state made explicit.  The returned state is the object state at the
moment of return or of the uncaught exception.  A missing filename logs a
warning and falls back to resolving against the working directory (empty
base); `networkx` raises `NotImplementedError` and any other experiment type
calls `exit(1)`. -/
def extract_stats_from_results (st : CoordState) (results : Value)
    (filename : Option String) (etype : Value) (exp_params : Dict) :
    CoordState × Except Err Nat :=
  match etype with
  | Value.str s =>
    if s = "mininet" then
      match filename with
      | none =>
        extract_stats_mininet { st with log := st.log ++ [noFilenameWarning] } results ""
          exp_params
      | some f => extract_stats_mininet st results f exp_params
    else if s = "networkx" then (st, .error (.notImplemented "netx parsing not supported yet!"))
    else (st, .error (.systemExit 1))
  | _ => (st, .error (.systemExit 1))

/-- The content of one candidate result file, by the outcome of Python's
`json.load` (external stdlib): either it decodes to a JSON value, or reading
it raises `ValueError` (invalid JSON), carrying the raw text. -/
inductive FileContent where
  | json : Value → FileContent
  | notJson : String → FileContent

/-- `SmartCampusExperimentStatistics.parse_file` (statistics.py lines 84-105):
a JSON decode failure is caught and skipped (`.ok none`); then `params` and
`results` are fetched (uncaught `KeyError` when absent), the run's experiment
type is recorded on the object (defaulting to `"networkx"`), the parameters
are normalized and the statistics extracted.  `record_stats` is a no-op. -/
def parse_file (st : CoordState) (content : FileContent) (fname : Option String) :
    CoordState × Except Err (Option Nat) :=
  match content with
  | .notJson _ => (st, .ok none)
  | .json data =>
    match Value.getItem data "params" with
    | .error e => (st, .error e)
    | .ok params =>
      match Value.getItem data "results" with
      | .error e => (st, .error e)
      | .ok results =>
        match params with
        | .obj pd =>
          let etype := (Dict.findVal pd "experiment_type").getD (Value.str "networkx")
          let st := { st with experiment_type := some etype }
          match extract_parameters pd etype with
          | .error e => (st, .error e)
          | .ok ps =>
            let outcome := extract_stats_from_results st results fname etype ps
            match outcome.2 with
            | .error e => (outcome.1, .error e)
            | .ok r => (outcome.1, .ok (some r))
        | _ => (st, .error .attributeError)

/-- `parse_all` in file mode (statistics.py lines 67-74): parse each file in
order; a skip continues, an uncaught exception aborts the run. -/
def parse_files (st : CoordState) : List (FileContent × Option String) → CoordState × Except Err Unit
  | [] => (st, .ok ())
  | (c, f) :: rest =>
    let outcome := parse_file st c f
    match outcome.2 with
    | .error e => (outcome.1, .error e)
    | .ok _ => parse_files outcome.1 rest

/-- A heap of dict objects addressed by reference, modelling Python reference
semantics for the `params` dict of a decoded document. -/
abbrev DictHeap := List (Nat × Dict)

/-- Dereference a dict object. -/
def DictHeap.findRef : DictHeap → Nat → Option Dict
  | [], _ => none
  | (r', d) :: rest, r => if r' = r then some d else DictHeap.findRef rest r

/-- Overwrite the dict object stored at a reference. -/
def DictHeap.setRef : DictHeap → Nat → Dict → DictHeap
  | [], _, _ => []
  | (r', d') :: rest, r, d =>
    if r' = r then (r, d) :: rest else (r', d') :: DictHeap.setRef rest r d

/-- `extract_parameters` under Python reference semantics: the function
mutates its argument dict in place (`pop`, `del`, subscript assignment), so
its net effect is to replace the dict stored at the caller's reference with
the normalized dict and return that same reference.  When normalization
raises, the run aborts and the partially mutated dict is never observed, so
the model leaves the heap unchanged in that case; a dangling reference cannot
occur in Python and is mapped to a `KeyError`. -/
def extract_parameters_at (h : DictHeap) (r : Nat) (etype : Value) :
    DictHeap × Except Err Nat :=
  match DictHeap.findRef h r with
  | none => (h, .error (.keyError "<dangling reference>"))
  | some d =>
    match extract_parameters d etype with
    | .error e => (h, .error e)
    | .ok m => (DictHeap.setRef h r m, .ok r)

/-! ### Association-list lemmas -/

theorem findVal_setVal_self (d : Dict) (k : String) (v : Value) :
    Dict.findVal (Dict.setVal d k v) k = some v := by
  induction d with
  | nil => simp [Dict.setVal, Dict.findVal]
  | cons kv rest ih =>
    obtain ⟨k', v'⟩ := kv
    by_cases h : k' = k <;> simp [Dict.setVal, Dict.findVal, h, ih]

theorem findVal_setVal_ne (d : Dict) {k k' : String} (v : Value) (h : k' ≠ k) :
    Dict.findVal (Dict.setVal d k v) k' = Dict.findVal d k' := by
  have hks : ¬ k = k' := fun e => h (Eq.symm e)
  induction d with
  | nil =>
    simp only [Dict.setVal, Dict.findVal]
    rw [if_neg hks]
  | cons kv rest ih =>
    obtain ⟨k0, v0⟩ := kv
    by_cases h0 : k0 = k
    · subst h0
      simp only [Dict.setVal, if_pos rfl, Dict.findVal]
      rw [if_neg hks, if_neg hks]
    · simp only [Dict.setVal, if_neg h0, Dict.findVal]
      by_cases h1 : k0 = k'
      · rw [if_pos h1, if_pos h1]
      · rw [if_neg h1, if_neg h1, ih]

theorem findVal_eraseVal_self (d : Dict) (k : String) :
    Dict.findVal (Dict.eraseVal d k) k = none := by
  induction d with
  | nil => simp [Dict.eraseVal, Dict.findVal]
  | cons kv rest ih =>
    obtain ⟨k', v⟩ := kv
    by_cases h : k' = k <;> simp [Dict.eraseVal, Dict.findVal, h, ih]

theorem findVal_eraseVal_ne (d : Dict) {k k' : String} (h : k' ≠ k) :
    Dict.findVal (Dict.eraseVal d k) k' = Dict.findVal d k' := by
  have hks : ¬ k = k' := fun e => h (Eq.symm e)
  induction d with
  | nil => rfl
  | cons kv rest ih =>
    obtain ⟨k0, v0⟩ := kv
    by_cases h0 : k0 = k
    · subst h0
      simp [Dict.eraseVal, Dict.findVal, hks, ih]
    · simp only [Dict.eraseVal, if_neg h0, Dict.findVal]
      by_cases h1 : k0 = k'
      · rw [if_pos h1, if_pos h1]
      · rw [if_neg h1, if_neg h1, ih]

theorem findVal_eq_none_iff (d : Dict) (k : String) :
    Dict.findVal d k = none ↔ k ∉ d.map Prod.fst := by
  induction d with
  | nil => simp [Dict.findVal]
  | cons kv rest ih =>
    obtain ⟨k', v⟩ := kv
    by_cases h : k' = k
    · subst h
      simp [Dict.findVal]
    · simp only [Dict.findVal, if_neg h, List.map_cons, List.mem_cons, ih]
      constructor
      · intro hn hc
        rcases hc with hc | hc
        · exact h hc.symm
        · exact hn hc
      · intro hn hc
        exact hn (Or.inr hc)

theorem mem_of_findVal {d : Dict} {k : String} {v : Value}
    (h : Dict.findVal d k = some v) : (k, v) ∈ d := by
  induction d with
  | nil => simp [Dict.findVal] at h
  | cons kv rest ih =>
    obtain ⟨k', v'⟩ := kv
    by_cases h0 : k' = k
    · subst h0
      simp [Dict.findVal] at h
      simp [h]
    · simp [Dict.findVal, h0] at h
      simp [ih h]

theorem mem_clearNulls {d : Dict} {kv : String × Value} (h : kv ∈ clearNulls d) :
    kv ∈ d ∧ kv.2.isNull = false := by
  induction d with
  | nil => simp [clearNulls] at h
  | cons kv0 rest ih =>
    obtain ⟨k0, v0⟩ := kv0
    by_cases h0 : v0.isNull
    · simp only [clearNulls, h0, if_pos] at h
      exact ⟨List.mem_cons_of_mem _ (ih h).1, (ih h).2⟩
    · simp only [clearNulls, h0, if_neg, Bool.false_eq_true, not_false_iff] at h
      rcases List.mem_cons.mp h with h1 | h1
      · subst h1
        exact ⟨List.mem_cons_self _ _, by simpa using h0⟩
      · exact ⟨List.mem_cons_of_mem _ (ih h1).1, (ih h1).2⟩

theorem findVal_clearNulls_none {d : Dict} {k : String}
    (h : Dict.findVal d k = none) : Dict.findVal (clearNulls d) k = none := by
  induction d with
  | nil => simp [clearNulls, h]
  | cons kv rest ih =>
    obtain ⟨k0, v0⟩ := kv
    by_cases h0 : k0 = k
    · simp [Dict.findVal, h0] at h
    · simp only [Dict.findVal, h0, if_neg, not_false_iff] at h
      by_cases h1 : v0.isNull <;> simp [clearNulls, Dict.findVal, h0, h1, ih h]

theorem findVal_clearNulls_some {d : Dict} {k : String} {v : Value}
    (hv : v.isNull = false) (h : Dict.findVal d k = some v) :
    Dict.findVal (clearNulls d) k = some v := by
  induction d with
  | nil => simp [Dict.findVal] at h
  | cons kv rest ih =>
    obtain ⟨k0, v0⟩ := kv
    by_cases h0 : k0 = k
    · subst h0
      simp only [Dict.findVal, if_pos] at h
      injection h with h
      subst h
      simp [clearNulls, hv, Dict.findVal]
    · simp only [Dict.findVal, h0, if_neg, not_false_iff] at h
      by_cases h1 : v0.isNull <;> simp [clearNulls, Dict.findVal, h0, h1, ih h]

theorem nodupKeys_cons {k : String} {v : Value} {rest : Dict} :
    NodupKeys ((k, v) :: rest) ↔ k ∉ rest.map Prod.fst ∧ NodupKeys rest := by
  simp [NodupKeys]

theorem findVal_clearNulls_null {d : Dict} {k : String} (hnd : NodupKeys d)
    (h : Dict.findVal d k = some Value.null) :
    Dict.findVal (clearNulls d) k = none := by
  induction d with
  | nil => simp [Dict.findVal] at h
  | cons kv rest ih =>
    obtain ⟨k0, v0⟩ := kv
    have hnd' : NodupKeys rest := (nodupKeys_cons.mp hnd).2
    by_cases h0 : k0 = k
    · subst h0
      simp only [Dict.findVal, if_pos] at h
      injection h with h
      subst h
      have hout : k0 ∉ rest.map Prod.fst := (nodupKeys_cons.mp hnd).1
      have : Dict.findVal rest k0 = none := (findVal_eq_none_iff rest k0).mpr hout
      simp [clearNulls, Value.isNull, findVal_clearNulls_none this]
    · simp only [Dict.findVal, h0, if_neg, not_false_iff] at h
      by_cases h1 : v0.isNull <;>
        simp [clearNulls, Dict.findVal, h0, h1, ih hnd' h]

theorem mem_keys_setVal {d : Dict} {k x : String} {v : Value}
    (h : x ∈ (Dict.setVal d k v).map Prod.fst) : x ∈ d.map Prod.fst ∨ x = k := by
  induction d with
  | nil => simp [Dict.setVal] at h; simp [h]
  | cons kv rest ih =>
    obtain ⟨k0, v0⟩ := kv
    by_cases h0 : k0 = k
    · subst h0
      simp only [Dict.setVal, if_pos, List.map_cons, List.mem_cons] at h
      rcases h with h | h
      · right; exact h
      · left; simp [h]
    · simp only [Dict.setVal, h0, if_neg, not_false_iff, List.map_cons, List.mem_cons] at h
      rcases h with h | h
      · left; simp [h]
      · rcases ih h with h1 | h1
        · left; simp [h1]
        · right; exact h1

theorem nodupKeys_setVal {d : Dict} (k : String) (v : Value) (hnd : NodupKeys d) :
    NodupKeys (Dict.setVal d k v) := by
  induction d with
  | nil => simp [Dict.setVal, NodupKeys]
  | cons kv rest ih =>
    obtain ⟨k0, v0⟩ := kv
    have hout : k0 ∉ rest.map Prod.fst := (nodupKeys_cons.mp hnd).1
    have hnd' : NodupKeys rest := (nodupKeys_cons.mp hnd).2
    by_cases h0 : k0 = k
    · subst h0
      have hs : Dict.setVal ((k0, v0) :: rest) k0 v = (k0, v) :: rest := by
        simp [Dict.setVal]
      rw [hs]
      exact nodupKeys_cons.mpr ⟨hout, hnd'⟩
    · have hs : Dict.setVal ((k0, v0) :: rest) k v = (k0, v0) :: Dict.setVal rest k v := by
        simp [Dict.setVal, h0]
      rw [hs]
      refine nodupKeys_cons.mpr ⟨?_, ih hnd'⟩
      intro hin
      rcases mem_keys_setVal hin with h1 | h1
      · exact hout h1
      · exact h0 h1

theorem keys_eraseVal_sublist (d : Dict) (k : String) :
    ((Dict.eraseVal d k).map Prod.fst).Sublist (d.map Prod.fst) := by
  induction d with
  | nil => simp [Dict.eraseVal]
  | cons kv rest ih =>
    obtain ⟨k0, v0⟩ := kv
    by_cases h0 : k0 = k
    · simpa [Dict.eraseVal, h0] using ih.cons k0
    · simpa [Dict.eraseVal, h0] using ih.cons₂ k0

theorem nodupKeys_eraseVal {d : Dict} (k : String) (hnd : NodupKeys d) :
    NodupKeys (Dict.eraseVal d k) :=
  List.Nodup.sublist (keys_eraseVal_sublist d k) hnd

theorem keys_clearNulls_sublist (d : Dict) :
    ((clearNulls d).map Prod.fst).Sublist (d.map Prod.fst) := by
  induction d with
  | nil => simp [clearNulls]
  | cons kv rest ih =>
    obtain ⟨k0, v0⟩ := kv
    by_cases h0 : v0.isNull
    · simpa [clearNulls, h0] using ih.cons k0
    · simpa [clearNulls, h0] using ih.cons₂ k0

theorem nodupKeys_clearNulls {d : Dict} (hnd : NodupKeys d) :
    NodupKeys (clearNulls d) :=
  List.Nodup.sublist (keys_clearNulls_sublist d) hnd

/-! ### Inversion and transport lemmas for the normalization steps -/

theorem step_rename_ok_inv {d d' : Dict} (h : step_rename d = Except.ok d') :
    ∃ hv ev, Dict.findVal d "heuristic" = some hv ∧
      Dict.findVal d "experiment_type" = some ev ∧
      d' = Dict.setVal
        (Dict.eraseVal (Dict.setVal (Dict.eraseVal d "heuristic") "const_alg" hv)
          "experiment_type") "exp_type" ev := by
  unfold step_rename at h
  split at h
  · exact Except.noConfusion h
  · rename_i hv hh
    split at h
    · exact Except.noConfusion h
    · rename_i ev he
      injection h with h
      have he' : Dict.findVal d "experiment_type" = some ev := by
        rw [← he, findVal_setVal_ne _ _ (by decide), findVal_eraseVal_ne _ (by decide)]
      exact ⟨hv, ev, hh, he', h.symm⟩

theorem step_rename_find {d d' : Dict} (h : step_rename d = Except.ok d') {k : String}
    (h1 : k ≠ "heuristic") (h2 : k ≠ "const_alg") (h3 : k ≠ "experiment_type")
    (h4 : k ≠ "exp_type") : Dict.findVal d' k = Dict.findVal d k := by
  obtain ⟨hv, ev, hh, he, rfl⟩ := step_rename_ok_inv h
  rw [findVal_setVal_ne _ _ h4, findVal_eraseVal_ne _ h3, findVal_setVal_ne _ _ h2,
    findVal_eraseVal_ne _ h1]

theorem step_rename_gone {d d' : Dict} (h : step_rename d = Except.ok d') :
    Dict.findVal d' "heuristic" = none ∧ Dict.findVal d' "experiment_type" = none := by
  obtain ⟨hv, ev, hh, he, rfl⟩ := step_rename_ok_inv h
  constructor
  · rw [findVal_setVal_ne _ _ (by decide), findVal_eraseVal_ne _ (by decide),
      findVal_setVal_ne _ _ (by decide), findVal_eraseVal_self]
  · rw [findVal_setVal_ne _ _ (by decide), findVal_eraseVal_self]

theorem step_rename_nodup {d d' : Dict} (h : step_rename d = Except.ok d')
    (hnd : NodupKeys d) : NodupKeys d' := by
  obtain ⟨hv, ev, hh, he, rfl⟩ := step_rename_ok_inv h
  exact nodupKeys_setVal _ _
    (nodupKeys_eraseVal _ (nodupKeys_setVal _ _ (nodupKeys_eraseVal _ hnd)))

theorem step_rename_eq {d : Dict} {hv ev : Value}
    (hh : Dict.findVal d "heuristic" = some hv)
    (he : Dict.findVal d "experiment_type" = some ev) :
    step_rename d = Except.ok (Dict.setVal
      (Dict.eraseVal (Dict.setVal (Dict.eraseVal d "heuristic") "const_alg" hv)
        "experiment_type") "exp_type" ev) := by
  have he' : Dict.findVal (Dict.setVal (Dict.eraseVal d "heuristic") "const_alg" hv)
      "experiment_type" = some ev := by
    rw [findVal_setVal_ne _ _ (by decide), findVal_eraseVal_ne _ (by decide), he]
  simp [step_rename, hh, he']

theorem step_fprob_ok_inv {d d' : Dict} (h : step_fprob d = Except.ok d') :
    ∃ fs comp q, Dict.findVal d "failure_model" = some (Value.str fs) ∧
      (pySplit fs '/').get? 1 = some comp ∧ pyFloat comp = some q ∧
      d' = Dict.setVal (Dict.eraseVal d "failure_model") "fprob" (Value.num q) := by
  unfold step_fprob at h
  split at h <;> try exact Except.noConfusion h
  rename_i fs hf
  split at h <;> try exact Except.noConfusion h
  rename_i comp hc
  split at h <;> try exact Except.noConfusion h
  rename_i q hq
  injection h with h
  exact ⟨fs, comp, q, hf, hc, hq, h.symm⟩

theorem step_fprob_find {d d' : Dict} (h : step_fprob d = Except.ok d') {k : String}
    (h1 : k ≠ "failure_model") (h2 : k ≠ "fprob") :
    Dict.findVal d' k = Dict.findVal d k := by
  obtain ⟨fs, comp, q, hf, hc, hq, rfl⟩ := step_fprob_ok_inv h
  rw [findVal_setVal_ne _ _ h2, findVal_eraseVal_ne _ h1]

theorem step_fprob_gone {d d' : Dict} (h : step_fprob d = Except.ok d') :
    Dict.findVal d' "failure_model" = none := by
  obtain ⟨fs, comp, q, hf, hc, hq, rfl⟩ := step_fprob_ok_inv h
  rw [findVal_setVal_ne _ _ (by decide), findVal_eraseVal_self]

theorem step_fprob_nodup {d d' : Dict} (h : step_fprob d = Except.ok d')
    (hnd : NodupKeys d) : NodupKeys d' := by
  obtain ⟨fs, comp, q, hf, hc, hq, rfl⟩ := step_fprob_ok_inv h
  exact nodupKeys_setVal _ _ (nodupKeys_eraseVal _ hnd)

theorem step_fprob_err_index {d : Dict} {fs : String}
    (hf : Dict.findVal d "failure_model" = some (Value.str fs))
    (hc : (pySplit fs '/').get? 1 = none) :
    step_fprob d = Except.error Err.indexError := by
  simp only [step_fprob, hf, hc]

theorem step_fprob_err_value {d : Dict} {fs comp : String}
    (hf : Dict.findVal d "failure_model" = some (Value.str fs))
    (hc : (pySplit fs '/').get? 1 = some comp) (hq : pyFloat comp = none) :
    step_fprob d = Except.error (Err.valueError comp) := by
  simp only [step_fprob, hf, hc, hq]

theorem step_topo_ok_inv {d d' : Dict} (h : step_topo d = Except.ok d') :
    ∃ tv, Dict.findVal d "topo" = some tv ∧
      ((tv.isStr = true ∧ d' = d) ∨
       (tv.isStr = false ∧ ∃ nv, Value.getIndex tv 1 = Except.ok nv ∧ nv.isStr = true ∧
         d' = Dict.setVal d "topo" nv)) := by
  unfold step_topo at h
  split at h
  · exact Except.noConfusion h
  · rename_i tv ht
    split at h
    · rename_i hs
      injection h with h
      exact ⟨tv, ht, Or.inl ⟨hs, h.symm⟩⟩
    · rename_i hs
      split at h <;> try exact Except.noConfusion h
      rename_i nv hg
      split at h
      · rename_i hns
        injection h with h
        exact ⟨tv, ht, Or.inr ⟨by simpa using hs, nv, hg, hns, h.symm⟩⟩
      · exact Except.noConfusion h

theorem step_topo_find {d d' : Dict} (h : step_topo d = Except.ok d') {k : String}
    (hk : k ≠ "topo") : Dict.findVal d' k = Dict.findVal d k := by
  obtain ⟨tv, ht, hcase⟩ := step_topo_ok_inv h
  rcases hcase with ⟨hs, rfl⟩ | ⟨hs, nv, hg, hns, rfl⟩
  · rfl
  · rw [findVal_setVal_ne _ _ hk]

theorem step_topo_nodup {d d' : Dict} (h : step_topo d = Except.ok d')
    (hnd : NodupKeys d) : NodupKeys d' := by
  obtain ⟨tv, ht, hcase⟩ := step_topo_ok_inv h
  rcases hcase with ⟨hs, rfl⟩ | ⟨hs, nv, hg, hns, rfl⟩
  · exact hnd
  · exact nodupKeys_setVal _ _ hnd

theorem ep_common_ok_inv {d d3 : Dict} (h : ep_common d = Except.ok d3) :
    ∃ d1 d2, step_rename d = Except.ok d1 ∧ step_fprob d1 = Except.ok d2 ∧
      step_topo d2 = Except.ok d3 := by
  unfold ep_common at h
  split at h <;> try exact Except.noConfusion h
  rename_i d1 h1
  split at h <;> try exact Except.noConfusion h
  rename_i d2 h2
  exact ⟨d1, d2, h1, h2, h⟩

theorem ep_common_find {d d3 : Dict} (h : ep_common d = Except.ok d3) {k : String}
    (h1 : k ≠ "heuristic") (h2 : k ≠ "const_alg") (h3 : k ≠ "experiment_type")
    (h4 : k ≠ "exp_type") (h5 : k ≠ "failure_model") (h6 : k ≠ "fprob")
    (h7 : k ≠ "topo") : Dict.findVal d3 k = Dict.findVal d k := by
  obtain ⟨d1, d2, ha, hb, hc⟩ := ep_common_ok_inv h
  rw [step_topo_find hc h7, step_fprob_find hb h5 h6, step_rename_find ha h1 h2 h3 h4]

theorem ep_common_nodup {d d3 : Dict} (h : ep_common d = Except.ok d3)
    (hnd : NodupKeys d) : NodupKeys d3 := by
  obtain ⟨d1, d2, ha, hb, hc⟩ := ep_common_ok_inv h
  exact step_topo_nodup hc (step_fprob_nodup hb (step_rename_nodup ha hnd))

theorem extract_parameters_ok_inv {d m : Dict} {ty : Value}
    (h : extract_parameters d ty = Except.ok m) :
    ty = Value.str "mininet" ∧
    ∃ d3, ep_common d = Except.ok d3 ∧ step_mininet (clearNulls d3) = Except.ok m := by
  unfold extract_parameters at h
  split at h <;> try exact Except.noConfusion h
  rename_i d3 hc
  split at h <;> try exact Except.noConfusion h
  rename_i s
  split at h
  · rename_i hs
    subst hs
    exact ⟨rfl, d3, hc, h⟩
  · split at h <;> exact Except.noConfusion h

/-! ### Lemmas about the mininet-specific block -/

theorem findVal_spSet_other {d : Dict} {tv : Value} {k : String}
    (h1 : k ≠ "tree_choosing_heuristic") (h2 : k ≠ "select_policy") :
    Dict.findVal (spSet d tv) k = Dict.findVal d k := by
  unfold spSet
  rw [findVal_setVal_ne _ _ h2, findVal_eraseVal_ne _ h1]

theorem findVal_spSet_sp {d : Dict} {tv : Value} :
    Dict.findVal (spSet d tv) "select_policy" = some tv := by
  unfold spSet
  rw [findVal_setVal_self]

theorem findVal_spSet_tch {d : Dict} {tv : Value} :
    Dict.findVal (spSet d tv) "tree_choosing_heuristic" = none := by
  unfold spSet
  rw [findVal_setVal_ne _ _ (by decide), findVal_eraseVal_self]

theorem step_mininet_ok_inv {d m : Dict} (h : step_mininet d = Except.ok m) :
    ∃ tv, Dict.findVal d "tree_choosing_heuristic" = some tv ∧
      ((truthyOpt (Dict.findVal (spSet d tv) "n_traffic_generators") = true ∧
        m = spSet d tv) ∨
       (truthyOpt (Dict.findVal (spSet d tv) "n_traffic_generators") = false ∧
        (∃ nv, Dict.findVal (spSet d tv) "n_traffic_generators" = some nv) ∧
        (∃ bv, Dict.findVal (Dict.eraseVal (spSet d tv) "n_traffic_generators")
            "traffic_generator_bandwidth" = some bv) ∧
        m = Dict.eraseVal (Dict.eraseVal (spSet d tv) "n_traffic_generators")
              "traffic_generator_bandwidth")) := by
  unfold step_mininet at h
  split at h
  · exact Except.noConfusion h
  · rename_i tv ht
    split at h
    · rename_i htr
      injection h with h
      exact ⟨tv, ht, Or.inl ⟨htr, h.symm⟩⟩
    · rename_i htr
      split at h <;> try exact Except.noConfusion h
      rename_i nv hn
      split at h <;> try exact Except.noConfusion h
      rename_i bv hb
      injection h with h
      exact ⟨tv, ht, Or.inr ⟨by simpa using htr, ⟨nv, hn⟩, ⟨bv, hb⟩, h.symm⟩⟩

theorem step_mininet_find {d m : Dict} (h : step_mininet d = Except.ok m) {k : String}
    (h1 : k ≠ "tree_choosing_heuristic") (h2 : k ≠ "select_policy")
    (h3 : k ≠ "n_traffic_generators") (h4 : k ≠ "traffic_generator_bandwidth") :
    Dict.findVal m k = Dict.findVal d k := by
  obtain ⟨tv, ht, hcase⟩ := step_mininet_ok_inv h
  rcases hcase with ⟨htr, rfl⟩ | ⟨htr, hn, hb, rfl⟩
  · exact findVal_spSet_other h1 h2
  · rw [findVal_eraseVal_ne _ h4, findVal_eraseVal_ne _ h3]
    exact findVal_spSet_other h1 h2

theorem step_mininet_tch_gone {d m : Dict} (h : step_mininet d = Except.ok m) :
    Dict.findVal m "tree_choosing_heuristic" = none := by
  obtain ⟨tv, ht, hcase⟩ := step_mininet_ok_inv h
  rcases hcase with ⟨htr, rfl⟩ | ⟨htr, hn, hb, rfl⟩
  · exact findVal_spSet_tch
  · rw [findVal_eraseVal_ne _ (by decide), findVal_eraseVal_ne _ (by decide)]
    exact findVal_spSet_tch

theorem step_mininet_tch_absent {d m : Dict} (h : step_mininet d = Except.ok m)
    (ha : Dict.findVal d "tree_choosing_heuristic" = none) : False := by
  obtain ⟨tv, ht, hcase⟩ := step_mininet_ok_inv h
  rw [ha] at ht
  exact Option.noConfusion ht

theorem step_mininet_ntg_absent {d m : Dict} (h : step_mininet d = Except.ok m)
    (ha : Dict.findVal d "n_traffic_generators" = none) : False := by
  obtain ⟨tv, ht, hcase⟩ := step_mininet_ok_inv h
  have hsp : Dict.findVal (spSet d tv) "n_traffic_generators" = none := by
    rw [findVal_spSet_other (by decide) (by decide), ha]
  rcases hcase with ⟨htr, _⟩ | ⟨htr, ⟨nv, hn⟩, _, _⟩
  · rw [hsp] at htr
    exact Bool.noConfusion htr
  · rw [hsp] at hn
    exact Option.noConfusion hn

theorem step_mininet_tgb_pres {d m : Dict} (h : step_mininet d = Except.ok m)
    (ha : Dict.findVal d "traffic_generator_bandwidth" = none) :
    Dict.findVal m "traffic_generator_bandwidth" = none := by
  obtain ⟨tv, ht, hcase⟩ := step_mininet_ok_inv h
  rcases hcase with ⟨htr, rfl⟩ | ⟨htr, ⟨nv, hn⟩, ⟨bv, hb⟩, rfl⟩
  · rw [findVal_spSet_other (by decide) (by decide), ha]
  · rw [findVal_eraseVal_self]

theorem step_mininet_falsy {d m : Dict} {v : Value} (h : step_mininet d = Except.ok m)
    (hv : Dict.findVal d "n_traffic_generators" = some v) (htr : Value.truthy v = false) :
    Dict.findVal m "n_traffic_generators" = none ∧
    Dict.findVal m "traffic_generator_bandwidth" = none := by
  obtain ⟨tv, ht, hcase⟩ := step_mininet_ok_inv h
  have hsp : Dict.findVal (spSet d tv) "n_traffic_generators" = some v := by
    rw [findVal_spSet_other (by decide) (by decide), hv]
  rcases hcase with ⟨htr', rfl⟩ | ⟨htr', hn, hb, rfl⟩
  · rw [hsp] at htr'
    simp [truthyOpt, htr] at htr'
  · constructor
    · rw [findVal_eraseVal_ne _ (by decide), findVal_eraseVal_self]
    · rw [findVal_eraseVal_self]

theorem step_mininet_vals {d m : Dict} (h : step_mininet d = Except.ok m) {k : String}
    {v : Value} (hk : Dict.findVal m k = some v) :
    ∃ k', Dict.findVal d k' = some v := by
  obtain ⟨tv, ht, hcase⟩ := step_mininet_ok_inv h
  have main : ∀ k0, Dict.findVal (spSet d tv) k0 = some v → ∃ k', Dict.findVal d k' = some v := by
    intro k0 hk0
    by_cases hq : k0 = "select_policy"
    · subst hq
      rw [findVal_spSet_sp] at hk0
      injection hk0 with hk0
      subst hk0
      exact ⟨"tree_choosing_heuristic", ht⟩
    · by_cases hp : k0 = "tree_choosing_heuristic"
      · subst hp
        rw [findVal_spSet_tch] at hk0
        exact Option.noConfusion hk0
      · rw [findVal_spSet_other hp hq] at hk0
        exact ⟨k0, hk0⟩
  rcases hcase with ⟨htr, rfl⟩ | ⟨htr, hn, hb, rfl⟩
  · exact main k hk
  · by_cases h4 : k = "traffic_generator_bandwidth"
    · subst h4
      rw [findVal_eraseVal_self] at hk
      exact Option.noConfusion hk
    · rw [findVal_eraseVal_ne _ h4] at hk
      by_cases h3 : k = "n_traffic_generators"
      · subst h3
        rw [findVal_eraseVal_self] at hk
        exact Option.noConfusion hk
      · rw [findVal_eraseVal_ne _ h3] at hk
        exact main k hk

theorem isNull_eq_false {v : Value} (h : v ≠ Value.null) : v.isNull = false := by
  cases v
  case null => exact absurd rfl h
  all_goals rfl

/-- `extract_parameters` always removes the `heuristic` key: it is popped by the
first rename and never reintroduced. -/
theorem extract_parameters_heuristic_gone {d m : Dict} {ty : Value}
    (hok : extract_parameters d ty = Except.ok m) :
    Dict.findVal m "heuristic" = none := by
  obtain ⟨hty, d3, hcom, hmin⟩ := extract_parameters_ok_inv hok
  obtain ⟨d1, d2, ha, hb, hc⟩ := ep_common_ok_inv hcom
  rw [step_mininet_find hmin (by decide) (by decide) (by decide) (by decide)]
  refine findVal_clearNulls_none ?_
  rw [step_topo_find hc (by decide), step_fprob_find hb (by decide) (by decide),
    (step_rename_gone ha).1]

/-! ### Claim C1 -/

/-- The exact raw parameter mapping of the claim. -/
def c1raw : Dict :=
  [("failure_model", Value.str "uniform/0.25"), ("heuristic", Value.str "steiner"),
   ("experiment_type", Value.str "mininet"),
   ("topo", Value.arr [Value.str "reader", Value.str "campus.json"]),
   ("tree_choosing_heuristic", Value.str "max-reachable"),
   ("n_traffic_generators", Value.num 0)]

/-- The claim's raw mapping with `traffic_generator_bandwidth` additionally
present (required for the `del` to succeed). -/
def c1rawFull : Dict := c1raw ++ [("traffic_generator_bandwidth", Value.num 100)]

/-- The dict `extract_parameters` produces for `c1rawFull` under `mininet`. -/
def c1result : Dict :=
  [("topo", Value.str "campus.json"), ("const_alg", Value.str "steiner"),
   ("exp_type", Value.str "mininet"), ("fprob", Value.num (mkRat 1 4)),
   ("select_policy", Value.str "max-reachable")]

/-- The normalized mapping the claim expects, in the claim's key order. -/
def c1expected : Dict :=
  [("const_alg", Value.str "steiner"), ("exp_type", Value.str "mininet"),
   ("fprob", Value.num (mkRat 1 4)), ("topo", Value.str "campus.json"),
   ("select_policy", Value.str "max-reachable")]

/-- C1 (counterexample): on exactly the claim's raw mapping — which lacks a
`traffic_generator_bandwidth` key — `extract_parameters` under `mininet` does
not succeed: because `n_traffic_generators` is 0 (falsy), the code executes
`del exp_params["traffic_generator_bandwidth"]` on an absent key and raises
`KeyError`, contradicting the claimed successful result. -/
theorem c1_counterexample :
    extract_parameters c1raw (Value.str "mininet") =
      Except.error (Err.keyError "traffic_generator_bandwidth") := rfl

/-- C1 (amended): with `traffic_generator_bandwidth` additionally present in
the raw mapping, `extract_parameters` under `mininet` succeeds and returns
exactly the mapping `{const_alg: "steiner", exp_type: "mininet", fprob: 0.25,
topo: "campus.json", select_policy: "max-reachable"}` (the same key-value
pairs as the claim's expected mapping), with no traffic-generator keys and no
null values. -/
theorem c1_amended_normalization :
    extract_parameters c1rawFull (Value.str "mininet") = Except.ok c1result ∧
    (∀ k, Dict.findVal c1result k = Dict.findVal c1expected k) ∧
    (∀ k v, Dict.findVal c1result k = some v → v ≠ Value.null) ∧
    Dict.findVal c1result "n_traffic_generators" = none ∧
    Dict.findVal c1result "traffic_generator_bandwidth" = none := by
  refine ⟨rfl, ?_, ?_, rfl, rfl⟩
  · intro k
    rcases eq_or_ne k "topo" with rfl | h1
    · rfl
    rcases eq_or_ne k "const_alg" with rfl | h2
    · rfl
    rcases eq_or_ne k "exp_type" with rfl | h3
    · rfl
    rcases eq_or_ne k "fprob" with rfl | h4
    · rfl
    rcases eq_or_ne k "select_policy" with rfl | h5
    · rfl
    have n1 : ¬ (("topo" : String) = k) := fun e => h1 e.symm
    have n2 : ¬ (("const_alg" : String) = k) := fun e => h2 e.symm
    have n3 : ¬ (("exp_type" : String) = k) := fun e => h3 e.symm
    have n4 : ¬ (("fprob" : String) = k) := fun e => h4 e.symm
    have n5 : ¬ (("select_policy" : String) = k) := fun e => h5 e.symm
    simp only [c1result, c1expected, Dict.findVal, if_neg n1, if_neg n2, if_neg n3,
      if_neg n4, if_neg n5]
  · intro k v hkv
    have hm := mem_of_findVal hkv
    intro hveq
    subst hveq
    simp [c1result] at hm

/-! ### Claim C3 -/

/-- A well-formed mininet raw mapping with `n_traffic_generators` absent. -/
def c3raw : Dict :=
  [("heuristic", Value.str "h"), ("experiment_type", Value.str "mininet"),
   ("failure_model", Value.str "uniform/0.5"), ("topo", Value.str "t.json"),
   ("tree_choosing_heuristic", Value.str "x")]

/-- `c3raw` with both traffic keys present and `n_traffic_generators = 0`. -/
def c3rawFull : Dict :=
  c3raw ++ [("n_traffic_generators", Value.num 0),
            ("traffic_generator_bandwidth", Value.num 8)]

/-- The dict `extract_parameters` produces for `c3rawFull` under `mininet`. -/
def c3resFull : Dict :=
  [("topo", Value.str "t.json"), ("const_alg", Value.str "h"),
   ("exp_type", Value.str "mininet"), ("fprob", Value.num (mkRat 1 2)),
   ("select_policy", Value.str "x")]

/-- C3 (counterexample): for a raw mapping in which `n_traffic_generators` is
absent (all other mininet parameters well-formed), normalization does not
succeed as claimed: the code reaches `del exp_params["n_traffic_generators"]`
and raises `KeyError`. -/
theorem c3_counterexample :
    Dict.findVal c3raw "n_traffic_generators" = none ∧
    extract_parameters c3raw (Value.str "mininet") =
      Except.error (Err.keyError "n_traffic_generators") := ⟨rfl, rfl⟩

/-- C3 (amended): under `mininet`, when `n_traffic_generators` is present with
a non-null falsy value (e.g. 0) and normalization succeeds (which additionally
requires `traffic_generator_bandwidth` to be present), the normalized output
contains neither `n_traffic_generators` nor `traffic_generator_bandwidth`;
when either traffic key is absent, normalization raises `KeyError` instead of
succeeding (see the counterexample). -/
theorem c3_amended_traffic_fields (pd : Dict) (ty : Value) (m : Dict) (v : Value)
    (hv : Dict.findVal pd "n_traffic_generators" = some v)
    (hvt : Value.truthy v = false) (hvn : v ≠ Value.null)
    (hok : extract_parameters pd ty = Except.ok m) :
    Dict.findVal m "n_traffic_generators" = none ∧
    Dict.findVal m "traffic_generator_bandwidth" = none := by
  obtain ⟨hty, d3, hcom, hmin⟩ := extract_parameters_ok_inv hok
  have hv3 : Dict.findVal d3 "n_traffic_generators" = some v := by
    rw [ep_common_find hcom (by decide) (by decide) (by decide) (by decide) (by decide)
      (by decide) (by decide), hv]
  have hv4 : Dict.findVal (clearNulls d3) "n_traffic_generators" = some v :=
    findVal_clearNulls_some (isNull_eq_false hvn) hv3
  exact step_mininet_falsy hmin hv4 hvt

theorem c3_amended_traffic_fields_witness :
    Dict.findVal c3resFull "n_traffic_generators" = none ∧
    Dict.findVal c3resFull "traffic_generator_bandwidth" = none :=
  c3_amended_traffic_fields c3rawFull (Value.str "mininet") c3resFull (Value.num 0)
    rfl rfl (fun h => Value.noConfusion h) rfl

/-! ### Claim C7 -/

/-- A raw mapping that already contains the derived key `fprob` with a null
value, alongside well-formed mininet parameters. -/
def c7raw : Dict :=
  [("fprob", Value.null), ("heuristic", Value.str "h"),
   ("experiment_type", Value.str "mininet"),
   ("failure_model", Value.str "uniform/0.5"), ("topo", Value.str "t.json"),
   ("tree_choosing_heuristic", Value.str "x"), ("n_traffic_generators", Value.num 1),
   ("traffic_generator_bandwidth", Value.num 10)]

/-- The dict `extract_parameters` produces for `c7raw` under `mininet`. -/
def c7res : Dict :=
  [("fprob", Value.num (mkRat 1 2)), ("topo", Value.str "t.json"),
   ("n_traffic_generators", Value.num 1), ("traffic_generator_bandwidth", Value.num 10),
   ("const_alg", Value.str "h"), ("exp_type", Value.str "mininet"),
   ("select_policy", Value.str "x")]

/-- C7 (counterexample): the key `fprob` has raw value null, normalization
succeeds, yet `fprob` is present in the output — the derivation
`exp_params['fprob'] = float(...)` overwrites the null before the
null-clearing loop runs, so a raw-null key is not always absent from the
normalized output. -/
theorem c7_counterexample :
    Dict.findVal c7raw "fprob" = some Value.null ∧
    extract_parameters c7raw (Value.str "mininet") = Except.ok c7res ∧
    Dict.findVal c7res "fprob" ≠ none :=
  ⟨rfl, rfl, by simp [c7res, Dict.findVal]⟩

/-- C7 (amended): for every raw mapping (with unique keys, as JSON decoding
guarantees) on which normalization succeeds, every raw-null key is absent from
the normalized output unless it is one of the rename/derivation target keys
(`const_alg`, `exp_type`, `fprob`, `topo`, `select_policy`) overwritten during
normalization; and no key of the returned mapping has a null value. -/
theorem c7_null_params_dropped (pd : Dict) (ty : Value) (m : Dict)
    (hnd : NodupKeys pd) (hok : extract_parameters pd ty = Except.ok m) :
    (∀ k, k ≠ "const_alg" → k ≠ "exp_type" → k ≠ "fprob" → k ≠ "topo" →
      k ≠ "select_policy" → Dict.findVal pd k = some Value.null →
      Dict.findVal m k = none) ∧
    (∀ k v, Dict.findVal m k = some v → v ≠ Value.null) := by
  obtain ⟨hty, d3, hcom, hmin⟩ := extract_parameters_ok_inv hok
  have hnd3 : NodupKeys d3 := ep_common_nodup hcom hnd
  constructor
  · intro k hk1 hk2 hk3 hk4 hk5 hnull
    by_cases e1 : k = "heuristic"
    · subst e1
      obtain ⟨d1, d2, ha, hb, hc⟩ := ep_common_ok_inv hcom
      rw [step_mininet_find hmin (by decide) (by decide) (by decide) (by decide)]
      refine findVal_clearNulls_none ?_
      rw [step_topo_find hc (by decide), step_fprob_find hb (by decide) (by decide),
        (step_rename_gone ha).1]
    · by_cases e2 : k = "experiment_type"
      · subst e2
        obtain ⟨d1, d2, ha, hb, hc⟩ := ep_common_ok_inv hcom
        rw [step_mininet_find hmin (by decide) (by decide) (by decide) (by decide)]
        refine findVal_clearNulls_none ?_
        rw [step_topo_find hc (by decide), step_fprob_find hb (by decide) (by decide),
          (step_rename_gone ha).2]
      · by_cases e3 : k = "failure_model"
        · subst e3
          obtain ⟨d1, d2, ha, hb, hc⟩ := ep_common_ok_inv hcom
          obtain ⟨fs, comp, q, hf, _, _, _⟩ := step_fprob_ok_inv hb
          have hfm : Dict.findVal d1 "failure_model" = some Value.null := by
            rw [step_rename_find ha (by decide) (by decide) (by decide) (by decide), hnull]
          rw [hfm] at hf
          injection hf with hf
          exact Value.noConfusion hf
        · by_cases e4 : k = "tree_choosing_heuristic"
          · subst e4
            have h3 : Dict.findVal d3 "tree_choosing_heuristic" = some Value.null := by
              rw [ep_common_find hcom (by decide) (by decide) (by decide) (by decide)
                (by decide) (by decide) (by decide), hnull]
            exact (step_mininet_tch_absent hmin (findVal_clearNulls_null hnd3 h3)).elim
          · by_cases e5 : k = "n_traffic_generators"
            · subst e5
              have h3 : Dict.findVal d3 "n_traffic_generators" = some Value.null := by
                rw [ep_common_find hcom (by decide) (by decide) (by decide) (by decide)
                  (by decide) (by decide) (by decide), hnull]
              exact (step_mininet_ntg_absent hmin (findVal_clearNulls_null hnd3 h3)).elim
            · by_cases e6 : k = "traffic_generator_bandwidth"
              · subst e6
                have h3 : Dict.findVal d3 "traffic_generator_bandwidth" =
                    some Value.null := by
                  rw [ep_common_find hcom (by decide) (by decide) (by decide) (by decide)
                    (by decide) (by decide) (by decide), hnull]
                exact step_mininet_tgb_pres hmin (findVal_clearNulls_null hnd3 h3)
              · have h3 : Dict.findVal d3 k = some Value.null := by
                  rw [ep_common_find hcom e1 hk1 e2 hk2 e3 hk3 hk4, hnull]
                rw [step_mininet_find hmin e4 hk5 e5 e6,
                  findVal_clearNulls_null hnd3 h3]
  · intro k v hkv
    obtain ⟨k', hk'⟩ := step_mininet_vals hmin hkv
    have hmem := mem_clearNulls (mem_of_findVal hk')
    intro hveq
    subst hveq
    simp [Value.isNull] at hmem

/-- A raw mapping with an ordinary null parameter (an unset random seed). -/
def c7wraw : Dict :=
  [("heuristic", Value.str "h"), ("experiment_type", Value.str "mininet"),
   ("failure_model", Value.str "uniform/0.5"), ("topo", Value.str "t.json"),
   ("tree_choosing_heuristic", Value.str "x"), ("n_traffic_generators", Value.num 1),
   ("seed", Value.null)]

/-- The dict `extract_parameters` produces for `c7wraw` under `mininet`. -/
def c7wres : Dict :=
  [("topo", Value.str "t.json"), ("n_traffic_generators", Value.num 1),
   ("const_alg", Value.str "h"), ("exp_type", Value.str "mininet"),
   ("fprob", Value.num (mkRat 1 2)), ("select_policy", Value.str "x")]

theorem c7_null_params_dropped_witness : Dict.findVal c7wres "seed" = none :=
  (c7_null_params_dropped c7wraw (Value.str "mininet") c7wres (by decide) rfl).1 "seed"
    (by decide) (by decide) (by decide) (by decide) (by decide) rfl

/-! ### Claim C8 -/

/-- A well-formed mininet raw mapping for exercising the fprob derivation. -/
def c8raw : Dict :=
  [("heuristic", Value.str "h"), ("experiment_type", Value.str "mininet"),
   ("failure_model", Value.str "uniform/0.25"), ("topo", Value.str "t.json"),
   ("tree_choosing_heuristic", Value.str "x"), ("n_traffic_generators", Value.num 1)]

/-- The dict `extract_parameters` produces for `c8raw` under `mininet`. -/
def c8res : Dict :=
  [("topo", Value.str "t.json"), ("n_traffic_generators", Value.num 1),
   ("const_alg", Value.str "h"), ("exp_type", Value.str "mininet"),
   ("fprob", Value.num (mkRat 1 4)), ("select_policy", Value.str "x")]

/-- C8: during normalization (given a raw mapping whose `heuristic` and
`experiment_type` keys are present, so that the renames preceding the fprob
step succeed, and whose `failure_model` is the string `fs`), `fprob` is
derived by splitting `fs` on `/` and converting the second component with
`float`, and `failure_model` is removed from the output; if `fs` has no
second component the normalization fails with `IndexError`, and if the second
component is not numeric it fails with `ValueError` — in both cases the error
propagates out of `extract_parameters`, with no default substituted. -/
theorem c8_fprob_derivation (pd : Dict) (ty : Value) (hv ev : Value) (fs : String)
    (hh : Dict.findVal pd "heuristic" = some hv)
    (he : Dict.findVal pd "experiment_type" = some ev)
    (hf : Dict.findVal pd "failure_model" = some (Value.str fs)) :
    ((pySplit fs '/').get? 1 = none →
      extract_parameters pd ty = Except.error Err.indexError) ∧
    (∀ comp, (pySplit fs '/').get? 1 = some comp → pyFloat comp = none →
      extract_parameters pd ty = Except.error (Err.valueError comp)) ∧
    (∀ m, extract_parameters pd ty = Except.ok m →
      ∃ comp q, (pySplit fs '/').get? 1 = some comp ∧ pyFloat comp = some q ∧
        Dict.findVal m "fprob" = some (Value.num q) ∧
        Dict.findVal m "failure_model" = none) := by
  have hra := step_rename_eq hh he
  have hf1 : Dict.findVal
      (Dict.setVal
        (Dict.eraseVal (Dict.setVal (Dict.eraseVal pd "heuristic") "const_alg" hv)
          "experiment_type") "exp_type" ev) "failure_model" = some (Value.str fs) := by
    rw [findVal_setVal_ne _ _ (by decide), findVal_eraseVal_ne _ (by decide),
      findVal_setVal_ne _ _ (by decide), findVal_eraseVal_ne _ (by decide), hf]
  refine ⟨?_, ?_, ?_⟩
  · intro hc
    have hcom : ep_common pd = Except.error Err.indexError := by
      simp only [ep_common, hra, step_fprob_err_index hf1 hc]
    simp only [extract_parameters, hcom]
  · intro comp hc hq
    have hcom : ep_common pd = Except.error (Err.valueError comp) := by
      simp only [ep_common, hra, step_fprob_err_value hf1 hc hq]
    simp only [extract_parameters, hcom]
  · intro m hok
    obtain ⟨hty, d3, hcom, hmin⟩ := extract_parameters_ok_inv hok
    obtain ⟨d1, d2, ha, hb, hc⟩ := ep_common_ok_inv hcom
    have hd1 : d1 = Dict.setVal
        (Dict.eraseVal (Dict.setVal (Dict.eraseVal pd "heuristic") "const_alg" hv)
          "experiment_type") "exp_type" ev := by
      rw [hra] at ha
      injection ha with ha
      exact ha.symm
    obtain ⟨fs', comp, q, hf', hc', hq', hd2⟩ := step_fprob_ok_inv hb
    have hfs : fs' = fs := by
      rw [hd1, hf1] at hf'
      injection hf' with hf'
      injection hf' with hf'
      exact hf'.symm
    subst hfs
    refine ⟨comp, q, hc', hq', ?_, ?_⟩
    · rw [step_mininet_find hmin (by decide) (by decide) (by decide) (by decide)]
      refine findVal_clearNulls_some rfl ?_
      rw [step_topo_find hc (by decide), hd2, findVal_setVal_self]
    · rw [step_mininet_find hmin (by decide) (by decide) (by decide) (by decide)]
      refine findVal_clearNulls_none ?_
      rw [step_topo_find hc (by decide), step_fprob_gone hb]

theorem c8_fprob_derivation_witness :
    ∃ comp q, (pySplit "uniform/0.25" '/').get? 1 = some comp ∧ pyFloat comp = some q ∧
      Dict.findVal c8res "fprob" = some (Value.num q) ∧
      Dict.findVal c8res "failure_model" = none :=
  (c8_fprob_derivation c8raw (Value.str "mininet") (Value.str "h")
    (Value.str "mininet") "uniform/0.25" rfl rfl rfl).2.2 c8res rfl

/-! ### Claim C9 -/

theorem string_empty_append (b : String) : "" ++ b = b := by
  cases b
  rfl

theorem pathJoin_empty (b : String) : pathJoin "" b = b := by
  unfold pathJoin
  by_cases h : startsWithSlash b
  · rw [if_pos h]
  · rw [if_neg h, if_pos rfl, string_empty_append]

theorem resolveOutputDirs_ok (base : String) (runs : List Value)
    (h : ∀ r ∈ runs, ∃ od, Value.getItem r "outputs_dir" = Except.ok (Value.str od)) :
    resolveOutputDirs base runs =
      Except.ok (runs.map (fun r => pathJoin base (outputsDirOf r))) := by
  induction runs with
  | nil => rfl
  | cons r rest ih =>
    obtain ⟨od, hod⟩ := h r (List.mem_cons_self _ _)
    have hrest := ih (fun r' hr' => h r' (List.mem_cons_of_mem _ hr'))
    have hodOf : outputsDirOf r = od := by simp [outputsDirOf, hod]
    simp [resolveOutputDirs, hod, hrest, hodOf]

/-- C9: in the mininet extraction path, with every element of `results`
carrying a string `outputs_dir`, the resolved directories handed to the
aggregator are `os.path.join(dirname(filename), outputs_dir)` for each run, in
the order of the `results` sequence; when no filename is available, resolution
falls back to the working directory (each run's `outputs_dir` is used as is)
and the no-filename warning is logged. -/
theorem c9_outputs_dir_resolution (st : CoordState) (runs : List Value) (ps : Dict)
    (f : String) (hst : st.stats = none)
    (hruns : ∀ r ∈ runs, ∃ od, Value.getItem r "outputs_dir" = Except.ok (Value.str od)) :
    extract_stats_from_results st (Value.arr runs) (some f) (Value.str "mininet") ps =
      ({ st with
          stats := some (st.nextId, Aggregate.create
            (runs.map (fun r => pathJoin (dirname f) (outputsDirOf r))) ps),
          nextId := st.nextId + 1 }, Except.ok st.nextId) ∧
    extract_stats_from_results st (Value.arr runs) none (Value.str "mininet") ps =
      ({ st with
          stats := some (st.nextId, Aggregate.create (runs.map outputsDirOf) ps),
          nextId := st.nextId + 1,
          log := st.log ++ [noFilenameWarning] }, Except.ok st.nextId) := by
  have hmini : ∀ (st' : CoordState) (f' : String), st'.stats = none →
      extract_stats_mininet st' (Value.arr runs) f' ps =
        ({ st' with
            stats := some (st'.nextId, Aggregate.create
              (runs.map (fun r => pathJoin (dirname f') (outputsDirOf r))) ps),
            nextId := st'.nextId + 1 }, Except.ok st'.nextId) := by
    intro st' f' hst'
    simp only [extract_stats_mininet, resolveOutputDirs_ok (dirname f') runs hruns, hst']
  constructor
  · show extract_stats_mininet st (Value.arr runs) f ps = _
    exact hmini st f hst
  · show extract_stats_mininet { st with log := st.log ++ [noFilenameWarning] }
      (Value.arr runs) "" ps = _
    rw [hmini { st with log := st.log ++ [noFilenameWarning] } "" (by simpa using hst)]
    have hd : dirname "" = "" := rfl
    simp [hd, pathJoin_empty]

/-- One run whose `outputs_dir` is `run0`, for the C9 witness. -/
def c9runs : List Value := [Value.obj [("outputs_dir", Value.str "run0")]]

theorem c9_outputs_dir_resolution_witness :
    extract_stats_from_results CoordState.init (Value.arr c9runs) (some "b/results.json")
        (Value.str "mininet") [] =
      ({ CoordState.init with
          stats := some (0, Aggregate.create
            (c9runs.map (fun r => pathJoin (dirname "b/results.json") (outputsDirOf r))) []),
          nextId := 1 }, Except.ok 0) ∧
    extract_stats_from_results CoordState.init (Value.arr c9runs) none
        (Value.str "mininet") [] =
      ({ CoordState.init with
          stats := some (0, Aggregate.create (c9runs.map outputsDirOf) []),
          nextId := 1,
          log := [noFilenameWarning] }, Except.ok 0) :=
  c9_outputs_dir_resolution CoordState.init c9runs [] "b/results.json" rfl
    (by intro r hr; simp only [c9runs, List.mem_singleton] at hr; subst hr
        exact ⟨"run0", rfl⟩)

/-! ### Claim C4 -/

theorem extract_stats_mininet_ok_inv {st st' : CoordState} {results : Value}
    {fname : String} {ps : Dict} {r : Nat}
    (h : extract_stats_mininet st results fname ps = (st', Except.ok r)) :
    (st.stats = none → r = st.nextId ∧ st'.stats.map Prod.fst = some r ∧
      st'.nextId = st.nextId + 1) ∧
    (∀ r0 agg, st.stats = some (r0, agg) → r = r0 ∧ st'.stats.map Prod.fst = some r0 ∧
      st'.nextId = st.nextId) := by
  unfold extract_stats_mininet at h
  split at h <;> try (injection h with h1 h2; exact Except.noConfusion h2)
  split at h
  · injection h with h1 h2
    exact Except.noConfusion h2
  · split at h
    · rename_i hnone
      injection h with h1 h2
      injection h2 with h2
      constructor
      · intro _
        subst h2
        rw [← h1]
        exact ⟨rfl, rfl, rfl⟩
      · intro r0 agg hsome
        rw [hnone] at hsome
        exact Option.noConfusion hsome
    · rename_i p hsome0
      obtain ⟨r0', agg'⟩ := p
      injection h with h1 h2
      injection h2 with h2
      constructor
      · intro hnone
        rw [hnone] at hsome0
        exact Option.noConfusion hsome0
      · intro r0 agg hsome
        rw [hsome0] at hsome
        injection hsome with hsome
        injection hsome with e1 e2
        subst h2
        rw [← h1, ← e1]
        exact ⟨rfl, rfl, rfl⟩

theorem extract_stats_from_results_mininet_eq (st : CoordState) (results : Value)
    (filename : Option String) (ps : Dict) :
    extract_stats_from_results st results filename (Value.str "mininet") ps =
      (match filename with
       | none => extract_stats_mininet { st with log := st.log ++ [noFilenameWarning] }
           results "" ps
       | some f => extract_stats_mininet st results f ps) := rfl

theorem stats_of_map_fst {st : CoordState} {r : Nat}
    (h : st.stats.map Prod.fst = some r) : ∃ agg, st.stats = some (r, agg) := by
  cases hs : st.stats with
  | none => rw [hs] at h; exact Option.noConfusion h
  | some p =>
    obtain ⟨a, b⟩ := p
    rw [hs] at h
    injection h with h
    subst h
    exact ⟨b, rfl⟩

/-- C4: over one run, at most one aggregate is ever created.  Starting from a
state with no aggregate, a first successful mininet extraction returns a
reference `r1` and allocates the single aggregate; a second successful
extraction (with any results, filename and parameters) returns the very same
reference, the allocation counter shows exactly one allocation in total, and
the state still holds that one aggregate. -/
theorem c4_single_aggregate (st st1 st2 : CoordState) (res1 res2 : Value)
    (f1 f2 : Option String) (ps1 ps2 : Dict) (r1 r2 : Nat)
    (hst : st.stats = none)
    (h1 : extract_stats_from_results st res1 f1 (Value.str "mininet") ps1 =
      (st1, Except.ok r1))
    (h2 : extract_stats_from_results st1 res2 f2 (Value.str "mininet") ps2 =
      (st2, Except.ok r2)) :
    r2 = r1 ∧ st2.nextId = st.nextId + 1 ∧ st2.stats.map Prod.fst = some r1 := by
  rw [extract_stats_from_results_mininet_eq] at h1 h2
  have first : r1 = st.nextId ∧ st1.stats.map Prod.fst = some r1 ∧
      st1.nextId = st.nextId + 1 := by
    cases f1 with
    | none => exact (extract_stats_mininet_ok_inv h1).1 (by simpa using hst)
    | some f => exact (extract_stats_mininet_ok_inv h1).1 hst
  obtain ⟨agg1, hagg1⟩ := stats_of_map_fst first.2.1
  have second : r2 = r1 ∧ st2.stats.map Prod.fst = some r1 ∧
      st2.nextId = st1.nextId := by
    cases f2 with
    | none => exact (extract_stats_mininet_ok_inv h2).2 r1 agg1 (by simpa using hagg1)
    | some f => exact (extract_stats_mininet_ok_inv h2).2 r1 agg1 hagg1
  exact ⟨second.1, by rw [second.2.2, first.2.2], second.2.1⟩

/-- A one-run results array for the C4 witness. -/
def c4res : Value := Value.arr [Value.obj [("outputs_dir", Value.str "a")]]

/-- The state after the first extraction of the C4 witness. -/
def c4st1 : CoordState := ⟨none, some (0, Aggregate.create ["x/a"] []), 1, []⟩

/-- The state after the second extraction of the C4 witness. -/
def c4st2 : CoordState :=
  ⟨none, some (0, Aggregate.mergeCall (Aggregate.create ["x/a"] []) ["y/a"] []), 1, []⟩

theorem c4_single_aggregate_witness :
    (0 : Nat) = 0 ∧ c4st2.nextId = CoordState.init.nextId + 1 ∧
      c4st2.stats.map Prod.fst = some 0 :=
  c4_single_aggregate CoordState.init c4st1 c4st2 c4res c4res (some "x/r.json")
    (some "y/r.json") [] [] 0 0 rfl rfl rfl

/-! ### Claim C2 -/

/-- C2 (counterexample): a file whose content is valid JSON but lacks the
top-level key `params` is not skipped: `data['params']` sits outside the
`try`, so `parse_file` raises an uncaught `KeyError` — not the skip signal
(`Except.ok none`) that a decode failure produces. -/
theorem c2_counterexample :
    parse_file CoordState.init (FileContent.json (Value.obj [("results", Value.arr [])]))
      (some "x.json") = (CoordState.init, Except.error (Err.keyError "params")) ∧
    Except.error (Err.keyError "params") ≠
      (Except.ok (none : Option Nat) : Except Err (Option Nat)) :=
  ⟨rfl, by simp⟩

/-- C2 (amended): a file whose content decodes as valid JSON but lacks the
top-level key `params` (or has `params` but lacks `results`) is not treated
like a decode failure: `parse_file` raises an uncaught `KeyError` naming the
missing key, aborting the run, instead of skipping the file. -/
theorem c2_missing_keys_fatal :
    (∀ (st : CoordState) (f : Option String) (fields : Dict),
      Dict.findVal fields "params" = none →
      parse_file st (FileContent.json (Value.obj fields)) f =
        (st, Except.error (Err.keyError "params"))) ∧
    (∀ (st : CoordState) (f : Option String) (fields : Dict) (pv : Value),
      Dict.findVal fields "params" = some pv →
      Dict.findVal fields "results" = none →
      parse_file st (FileContent.json (Value.obj fields)) f =
        (st, Except.error (Err.keyError "results"))) := by
  constructor
  · intro st f fields hp
    simp only [parse_file, Value.getItem, hp]
  · intro st f fields pv hp hr
    simp only [parse_file, Value.getItem, hp, hr]

theorem c2_missing_keys_fatal_witness :
    parse_file CoordState.init (FileContent.json (Value.obj [])) (some "w.json") =
      (CoordState.init, Except.error (Err.keyError "params")) :=
  c2_missing_keys_fatal.1 CoordState.init (some "w.json") [] rfl

/-! ### Claim C5 -/

/-- C5 (counterexample): a legacy document whose `params` omit
`experiment_type` (hence defaulted to `networkx`) but also lack the common
keys fails with `KeyError('heuristic')` from the renames that run before the
type dispatch — not with the "not supported" `NotImplementedError` the claim
promises for every such file. -/
theorem c5_counterexample :
    parse_file CoordState.init
      (FileContent.json (Value.obj [("params", Value.obj []), ("results", Value.arr [])]))
      (some "f.json") =
      ({ CoordState.init with experiment_type := some (Value.str "networkx") },
        Except.error (Err.keyError "heuristic")) ∧
    Err.keyError "heuristic" ≠ Err.notImplemented "netx parsing not supported yet!" :=
  ⟨rfl, by decide⟩

/-- C5 (amended): for every file whose decoded document has a `params` dict
that either sets `experiment_type` to `"networkx"` or omits it (legacy
default), `parse_file` fails — it records `networkx` as the run's experiment
type and returns an uncaught exception with the aggregate state otherwise
untouched, so no statistics are aggregated — and whenever the common
normalization steps (renames, fprob derivation, topo normalization) succeed on
those params, the exception is precisely the explicit
`NotImplementedError('netx parsing not supported yet!')`. -/
theorem c5_networkx_unsupported (st : CoordState) (doc : Value) (f : Option String)
    (pd : Dict) (res : Value)
    (hp : Value.getItem doc "params" = Except.ok (Value.obj pd))
    (hres : Value.getItem doc "results" = Except.ok res)
    (he : (Dict.findVal pd "experiment_type").getD (Value.str "networkx") =
      Value.str "networkx") :
    ∃ e, parse_file st (FileContent.json doc) f =
        ({ st with experiment_type := some (Value.str "networkx") }, Except.error e) ∧
      (∀ d3, ep_common pd = Except.ok d3 →
        e = Err.notImplemented "netx parsing not supported yet!") := by
  cases hcom : ep_common pd with
  | error e0 =>
    refine ⟨e0, ?_, ?_⟩
    · have hex : extract_parameters pd (Value.str "networkx") = Except.error e0 := by
        simp only [extract_parameters, hcom]
      simp only [parse_file, hp, hres, he, hex]
    · intro d3 hd3
      exact Except.noConfusion hd3
  | ok d3 =>
    refine ⟨Err.notImplemented "netx parsing not supported yet!", ?_, fun _ _ => rfl⟩
    have hex : extract_parameters pd (Value.str "networkx") =
        Except.error (Err.notImplemented "netx parsing not supported yet!") := by
      simp only [extract_parameters, hcom]
      rfl
    simp only [parse_file, hp, hres, he, hex]

/-- Well-formed legacy (no `experiment_type`) params for the C5 witness. -/
def c5params : Dict :=
  [("heuristic", Value.str "h"), ("failure_model", Value.str "uniform/0.5"),
   ("topo", Value.str "t.json")]

/-- A legacy document (params lack `experiment_type`) for the C5 witness. -/
def c5doc : Value :=
  Value.obj [("params", Value.obj c5params), ("results", Value.arr [])]

theorem c5_networkx_unsupported_witness :
    ∃ e, parse_file CoordState.init (FileContent.json c5doc) (some "f.json") =
        ({ CoordState.init with experiment_type := some (Value.str "networkx") },
          Except.error e) ∧
      (∀ d3, ep_common c5params = Except.ok d3 →
        e = Err.notImplemented "netx parsing not supported yet!") :=
  c5_networkx_unsupported CoordState.init c5doc (some "f.json") c5params
    (Value.arr []) rfl rfl rfl

/-! ### Claim C6 -/

/-- A well-formed mininet result document for the C6 run. -/
def c6goodDoc : Value :=
  Value.obj [("params", Value.obj
      [("experiment_type", Value.str "mininet"), ("heuristic", Value.str "steiner"),
       ("failure_model", Value.str "uniform/0.25"), ("topo", Value.str "campus.json"),
       ("tree_choosing_heuristic", Value.str "max-reachable"),
       ("n_traffic_generators", Value.num 1), ("traffic_generator_bandwidth", Value.num 10)]),
    ("results", Value.arr [Value.obj [("outputs_dir", Value.str "run0")]])]

/-- The normalized parameters of `c6goodDoc`. -/
def c6params : Dict :=
  [("topo", Value.str "campus.json"), ("n_traffic_generators", Value.num 1),
   ("traffic_generator_bandwidth", Value.num 10), ("const_alg", Value.str "steiner"),
   ("exp_type", Value.str "mininet"), ("fprob", Value.num (mkRat 1 4)),
   ("select_policy", Value.str "max-reachable")]

/-- C6: a file whose content is not valid JSON yields a skip — `parse_file`
returns the skip signal with the state untouched and no exception — and the
run continues exactly as if the file were not there, so a subsequent valid
file in the same run is still processed and merged: the concrete two-file run
(`not json` followed by a valid mininet document) ends successfully with the
aggregate built from the valid file. -/
theorem c6_invalid_json_skip :
    (∀ (st : CoordState) (raw : String) (f : Option String),
      parse_file st (FileContent.notJson raw) f = (st, Except.ok none)) ∧
    (∀ (st : CoordState) (raw : String) (f : Option String)
      (rest : List (FileContent × Option String)),
      parse_files st ((FileContent.notJson raw, f) :: rest) = parse_files st rest) ∧
    ((parse_files CoordState.init
        [(FileContent.notJson "not json", some "a.json"),
         (FileContent.json c6goodDoc, some "b/results.json")]).2 = Except.ok ()) ∧
    ((parse_files CoordState.init
        [(FileContent.notJson "not json", some "a.json"),
         (FileContent.json c6goodDoc, some "b/results.json")]).1.stats =
      some (0, Aggregate.create ["b/run0"] c6params)) :=
  ⟨fun _ _ _ => rfl, fun _ _ _ _ => rfl, rfl, rfl⟩

/-! ### Claim C10 -/

theorem findRef_setRef_self {h : DictHeap} {r : Nat} {d : Dict}
    (hr : DictHeap.findRef h r = some d) (m : Dict) :
    DictHeap.findRef (DictHeap.setRef h r m) r = some m := by
  induction h with
  | nil => simp [DictHeap.findRef] at hr
  | cons p rest ih =>
    obtain ⟨r', d'⟩ := p
    by_cases h0 : r' = r
    · simp [DictHeap.setRef, DictHeap.findRef, h0]
    · simp only [DictHeap.findRef, h0, if_neg, not_false_iff] at hr
      simp [DictHeap.setRef, DictHeap.findRef, h0, ih hr]

/-- C10: `extract_parameters` operates on the caller's dict object itself: on
success it returns the same reference it was given, the heap cell at that
reference now holds the normalized mapping, and — since `heuristic` is always
popped — the cell no longer holds the original raw contents whenever the raw
mapping had a `heuristic` key. -/
theorem c10_in_place_mutation (h : DictHeap) (r : Nat) (d m : Dict) (ty : Value)
    (hr : DictHeap.findRef h r = some d)
    (hok : extract_parameters d ty = Except.ok m) :
    extract_parameters_at h r ty = (DictHeap.setRef h r m, Except.ok r) ∧
    DictHeap.findRef (DictHeap.setRef h r m) r = some m ∧
    Dict.findVal m "heuristic" = none ∧
    (Dict.findVal d "heuristic" ≠ none →
      DictHeap.findRef ((extract_parameters_at h r ty).1) r ≠ some d) := by
  have hgone := extract_parameters_heuristic_gone hok
  have hmain : extract_parameters_at h r ty = (DictHeap.setRef h r m, Except.ok r) := by
    simp only [extract_parameters_at, hr, hok]
  refine ⟨hmain, findRef_setRef_self hr m, hgone, ?_⟩
  intro hne hsame
  rw [hmain] at hsame
  rw [findRef_setRef_self hr m] at hsame
  injection hsame with hsame
  rw [← hsame] at hne
  exact hne hgone

/-- The raw params dict stored on the C10 witness heap. -/
def c10raw : Dict :=
  [("heuristic", Value.str "h"), ("experiment_type", Value.str "mininet"),
   ("failure_model", Value.str "uniform/0.5"), ("topo", Value.str "t.json"),
   ("tree_choosing_heuristic", Value.str "x"), ("n_traffic_generators", Value.num 1)]

/-- The normalized dict for `c10raw` under `mininet`. -/
def c10res : Dict :=
  [("topo", Value.str "t.json"), ("n_traffic_generators", Value.num 1),
   ("const_alg", Value.str "h"), ("exp_type", Value.str "mininet"),
   ("fprob", Value.num (mkRat 1 2)), ("select_policy", Value.str "x")]

/-- A one-object heap for the C10 witness. -/
def c10heap : DictHeap := [(5, c10raw)]

theorem c10_in_place_mutation_witness :
    extract_parameters_at c10heap 5 (Value.str "mininet") =
      (DictHeap.setRef c10heap 5 c10res, Except.ok 5) ∧
    DictHeap.findRef (DictHeap.setRef c10heap 5 c10res) 5 = some c10res :=
  ⟨(c10_in_place_mutation c10heap 5 c10raw c10res (Value.str "mininet") rfl rfl).1,
   (c10_in_place_mutation c10heap 5 c10raw c10res (Value.str "mininet") rfl rfl).2.1⟩

end RideStats
